import Mathlib

/-!
Shallow embedding of the finch persistence layer (`persist.go`).

The SQLite database is modelled as an explicit state (`DB`): one list of
rows per table plus auto-increment counters for the integer primary keys.
Go functions returning `(*T, error)` are modelled as functions returning
`Option T × Bool`, where the `Bool` is `true` exactly when the Go `error`
is non-nil (a `nil` pointer result is `none`).

Statement *preparation* failures and `Query` failures call `log.Fatal` in
the source (the process dies), so they are outside the model.  Statement
*execution* (`Exec`) failures are observable behaviour: they are modelled
by (a) the uniqueness constraints of the schema and (b) a failure oracle
(`ok : Bool`, or `oracle : Nat → Bool` indexed by the number of `Exec`
calls already made in the loop) standing for any other engine failure.

`uuid.NewV4()` and `time.Now().Unix()` are modelled as parameters
(`u4 : String`, `now : Int`) of `AddPost`; password hashing
(`user.SetPassword`, defined outside `persist.go`) is a parameter
`hash : String → String` of `CreateUser`.
-/

/-- A row of the `users` table: `users(id, username unique, password)`. -/
structure UserRow where
  id : Nat
  username : String
  password : String
deriving Repr, DecidableEq

/-- A row of the `channel` table: `channel(id, user_id, slug, label)`. -/
structure ChannelRow where
  id : Nat
  user_id : Nat
  slug : String
  label : String
deriving Repr, DecidableEq

/-- A row of the `post` table: `post(id, uuid, user_id, body, posted)`. -/
structure PostRow where
  id : Nat
  uuid : String
  user_id : Nat
  body : String
  posted : Int
deriving Repr, DecidableEq

/-- A row of the `postchannel` join table: `postchannel(post_id, channel_id)`. -/
structure PostChannelRow where
  post_id : Nat
  channel_id : Nat
deriving Repr, DecidableEq

/-- The database state: the four tables of the schema, plus the next value
of each auto-increment primary key. -/
structure DB where
  users : List UserRow
  channels : List ChannelRow
  posts : List PostRow
  postchannels : List PostChannelRow
  nextUserId : Nat
  nextChannelId : Nat
  nextPostId : Nat
deriving Repr, DecidableEq

/-- The `User` record handed to callers (Go `User{Id, Username, Password}`). -/
structure User where
  Id : Nat
  Username : String
  Password : String
deriving Repr, DecidableEq

/-- The `Channel` record handed to callers (Go `Channel{Id, User, Slug, Label}`);
the `User` field is a pointer in Go, hence `Option` here. -/
structure Channel where
  Id : Nat
  User : Option User
  Slug : String
  Label : String
deriving Repr, DecidableEq

/-- The `Post` record handed to callers (Go `Post{Id, UUID, User, Body, Posted}`). -/
structure Post where
  Id : Nat
  UUID : String
  User : Option User
  Body : String
  Posted : Int
deriving Repr, DecidableEq

/-- `select id, password from users where username = ?` (first matching row). -/
def findUserByName (db : DB) (username : String) : Option UserRow :=
  db.users.find? (fun r => r.username == username)

/-- `select username, password from users where id = ?` (first matching row). -/
def findUserById (db : DB) (id : Nat) : Option UserRow :=
  db.users.find? (fun r => r.id == id)

/-- `GetUser` (persist.go): looks a user up by username.  Returns the Go
pair `(*User, bool)`: on a missing row the scan error is swallowed and
`(nil, false)` is returned; the second component is the `found` flag,
not an error. -/
def GetUser (db : DB) (username : String) : Option User × Bool :=
  match findUserByName db username with
  | none => (none, false)
  | some r => (some ⟨r.id, username, r.password⟩, true)

/-- `GetUserById` (persist.go): looks a user up by id.  Returns the Go pair
`(*User, error)`: the scan error for a missing row is propagated, so the
`Bool` component (`true` = non-nil error) is `true` exactly on a miss. -/
def GetUserById (db : DB) (id : Nat) : Option User × Bool :=
  match findUserById db id with
  | none => (none, true)
  | some r => (some ⟨id, r.username, r.password⟩, false)

/-- `stmt.Exec(username, encpassword)` for
`insert into users(username, password) values(?, ?)`.
Modelled from the spec: the schema (schema.sql, not under src/) declares
`username` unique, so the insert errors on a duplicate username; `ok = false`
stands for any other engine failure.  Returns the new state and the error flag. -/
def execInsertUser (db : DB) (username password : String) (ok : Bool) : DB × Bool :=
  if ok = true ∧ findUserByName db username = none then
    ({ db with
        users := db.users ++ [⟨db.nextUserId, username, password⟩],
        nextUserId := db.nextUserId + 1 }, false)
  else (db, true)

/-- Result of `CreateUser`: final database, returned user pointer, returned
error flag, and whether `tx.Commit()` was reached. -/
structure CreateUserResult where
  db : DB
  user : Option User
  err : Bool
  committed : Bool
deriving Repr, DecidableEq

/-- `CreateUser` (persist.go): hashes the password, begins a transaction,
executes the insert — assigning but never checking its error — commits
unconditionally, then re-reads via `GetUser` (whose `found` flag is also
discarded) and returns `(u, nil)`. -/
def CreateUser (db : DB) (username password : String)
    (hash : String → String) (ok : Bool) : CreateUserResult :=
  let encpassword := hash password
  let txres := execInsertUser db username encpassword ok
  let db1 := txres.1
  let u := (GetUser db1 username).1
  { db := db1, user := u, err := false, committed := true }

/-- `strings.Replace(label, " ", "_", -1)`, character by character (the
pattern `" "` is a single character, so the substring replace is a map). -/
def repSpace (c : Char) : Char :=
  if c = ' ' then '_' else c

/-- `strings.ToLower` character-wise. -/
def lowerChar (c : Char) : Char :=
  c.toLower

/-- `strings.ToLower(strings.Replace(label, " ", "_", -1))`. -/
def slugOf (label : String) : String :=
  ⟨(label.data.map repSpace).map lowerChar⟩

/-- `select id, label from channel where user_id = ? AND slug = ?`
(first matching row). -/
def findChannel (db : DB) (uid : Nat) (slug : String) : Option ChannelRow :=
  db.channels.find? (fun r => r.user_id == uid && r.slug == slug)

/-- `GetChannel` (persist.go): unique lookup by owner and slug; a missing
row propagates the scan error (`Bool = true`) with a `nil` channel. -/
def GetChannel (db : DB) (u : User) (slug : String) : Option Channel × Bool :=
  match findChannel db u.Id slug with
  | none => (none, true)
  | some r => (some ⟨r.id, some u, slug, r.label⟩, false)

/-- `stmt.Exec(u.Id, slug, label)` for
`insert into channel(user_id, slug, label) values(?, ?, ?)`.
Modelled from the spec: the schema (schema.sql, not under src/) declares
uniqueness on `(user_id, slug)`, so the insert errors when such a row
already exists; `ok = false` stands for any other engine failure. -/
def execInsertChannel (db : DB) (uid : Nat) (slug label : String) (ok : Bool) :
    DB × Bool :=
  if ok = true ∧ findChannel db uid slug = none then
    ({ db with
        channels := db.channels ++ [⟨db.nextChannelId, uid, slug, label⟩],
        nextChannelId := db.nextChannelId + 1 }, false)
  else (db, true)

/-- The `for _, label := range names` loop of `AddChannels`: empty labels
are skipped; otherwise the insert is executed (its error is assigned but
immediately shadowed), the row is re-read with `GetChannel`, and the
returned channel pointer is appended to `created` exactly when that
lookup returned a non-nil error.  `k` counts the `Exec` calls already
made, indexing the failure oracle. -/
def addChannelsLoop (db : DB) (u : User) (labels : List String)
    (oracle : Nat → Bool) (k : Nat) (created : List (Option Channel)) :
    DB × List (Option Channel) :=
  match labels with
  | [] => (db, created)
  | label :: rest =>
    if label = "" then
      addChannelsLoop db u rest oracle k created
    else
      let slug := slugOf label
      let db1 := (execInsertChannel db u.Id slug label (oracle k)).1
      let gc := GetChannel db1 u slug
      if gc.2 = true then
        addChannelsLoop db1 u rest oracle (k + 1) (created ++ [gc.1])
      else
        addChannelsLoop db1 u rest oracle (k + 1) created

/-- Result of `AddChannels`: final database, the `created` slice, the
returned error flag, and whether `tx.Commit()` was reached. -/
structure AddChannelsResult where
  db : DB
  created : List (Option Channel)
  err : Bool
  committed : Bool

/-- `AddChannels` (persist.go): one transaction around the whole label
loop, committed unconditionally at the end; always returns a nil error. -/
def AddChannels (db : DB) (u : User) (names : List String)
    (oracle : Nat → Bool) : AddChannelsResult :=
  let res := addChannelsLoop db u names oracle 0 []
  { db := res.1, created := res.2, err := false, committed := true }

/-- `UserChannels` (persist.go):
`select id, slug, label from channel where user_id = ?`, each row turned
into a `Channel` whose `User` back-reference is left nil. -/
def UserChannels (db : DB) (u : User) : List Channel :=
  (db.channels.filter (fun r => r.user_id == u.Id)).map
    (fun r => ⟨r.id, none, r.slug, r.label⟩)

/-- `select user_id, uuid, body, posted from post where id = ?`
(first matching row). -/
def findPost (db : DB) (id : Nat) : Option PostRow :=
  db.posts.find? (fun r => r.id == id)

/-- `GetPost` (persist.go): reads the post row, then resolves its owning
user via `GetUserById`; either failure is propagated.  Channel
associations are not populated (a known gap in the source). -/
def GetPost (db : DB) (id : Nat) : Option Post × Bool :=
  match findPost db id with
  | none => (none, true)
  | some r =>
    match GetUserById db r.user_id with
    | (some u, false) => (some ⟨id, r.uuid, some u, r.body, r.posted⟩, false)
    | _ => (none, true)

/-- Insert a post row into the `order by posted desc` position: the row
goes before the first row with a strictly smaller-or-equal timestamp. -/
def insertPostDesc (r : PostRow) : List PostRow → List PostRow
  | [] => [r]
  | x :: xs => if x.posted ≤ r.posted then r :: x :: xs else x :: insertPostDesc r xs

/-- `order by posted desc`: the table contents sorted by `posted`
descending (insertion sort; ties in an engine-chosen but fixed order). -/
def sortPostsDesc (rows : List PostRow) : List PostRow :=
  rows.foldr insertPostDesc []

/-- The rows produced by
`select ... from post order by posted desc limit ? offset ?`. -/
def pageRows (db : DB) (limit offset : Nat) : List PostRow :=
  ((sortPostsDesc db.posts).drop offset).take limit

/-- The per-row body of the `GetAllPosts` loop: resolve the owning user
with `GetUserById`; on error the row is skipped (`continue`), otherwise a
`Post` is built from the row and the resolved user. -/
def resolvePost (db : DB) (r : PostRow) : Option Post :=
  match GetUserById db r.user_id with
  | (some u, false) => some ⟨r.id, r.uuid, some u, r.body, r.posted⟩
  | _ => none

/-- `GetAllPosts` (persist.go): the global feed page (`limit`/`offset`
over the posts sorted by `posted` descending); each row's owning user is
resolved and rows whose user cannot be resolved are silently dropped.
The returned error is always nil. -/
def GetAllPosts (db : DB) (limit offset : Nat) : List Post × Bool :=
  ((pageRows db limit offset).filterMap (resolvePost db), false)

/-- `GetAllUserPosts` (persist.go): one user's posts, same ordering and
pagination, no per-row resolution (the user is already known). -/
def GetAllUserPosts (db : DB) (u : User) (limit offset : Nat) :
    List Post × Bool :=
  ((((sortPostsDesc (db.posts.filter (fun r => r.user_id == u.Id))).drop
      offset).take limit).map
    (fun r => ⟨r.id, r.uuid, some u, r.body, r.posted⟩), false)

/-- `stmt.Exec(u.Id, u4.String(), body, time.Now().Unix())` for
`insert into post(user_id, uuid, body, posted) values(?, ?, ?, ?)`.
Modelled from the spec: the schema (schema.sql, not under src/) declares
`uuid` unique, so the insert errors on a duplicate token; `ok = false`
stands for any other engine failure.  On success returns
`r.LastInsertId()`, the id just assigned. -/
def execInsertPost (db : DB) (uid : Nat) (u4 body : String) (now : Int)
    (ok : Bool) : DB × Option Nat :=
  if ok = true ∧ db.posts.find? (fun r => r.uuid == u4) = none then
    ({ db with
        posts := db.posts ++ [⟨db.nextPostId, u4, uid, body, now⟩],
        nextPostId := db.nextPostId + 1 }, some db.nextPostId)
  else (db, none)

/-- The `for _, c := range channels` loop of `AddPost`: one
`insert into postchannel (post_id, channel_id) values (?, ?)` per
channel; an `Exec` error (oracle `false`) is logged and the loop
continues.  `k` counts the join `Exec` calls already made. -/
def addPostJoinLoop (db : DB) (pid : Nat) (channels : List Channel)
    (oracle : Nat → Bool) (k : Nat) : DB :=
  match channels with
  | [] => db
  | c :: rest =>
    let db1 :=
      if oracle k then
        { db with postchannels := db.postchannels ++ [⟨pid, c.Id⟩] }
      else db
    addPostJoinLoop db1 pid rest oracle (k + 1)

/-- Result of `AddPost`: final database, returned post pointer, returned
error flag, and whether `tx.Commit()` was reached. -/
structure AddPostResult where
  db : DB
  post : Option Post
  err : Bool
  committed : Bool

/-- `AddPost` (persist.go): begins a transaction, inserts the post row —
returning the error *before any commit* if that insert fails — then runs
the join-row loop (whose errors are only logged), commits, and re-reads
the post by its new id with `GetPost`, propagating that lookup's error.
`u4` is the token from `uuid.NewV4()`, `now` is `time.Now().Unix()`. -/
def AddPost (db : DB) (u : User) (body : String) (channels : List Channel)
    (u4 : String) (now : Int) (postOk : Bool) (joinOracle : Nat → Bool) :
    AddPostResult :=
  match execInsertPost db u.Id u4 body now postOk with
  | (_, none) => { db := db, post := none, err := true, committed := false }
  | (tx1, some id) =>
    let db1 := addPostJoinLoop tx1 id channels joinOracle 0
    let gp := GetPost db1 id
    { db := db1, post := gp.1, err := gp.2, committed := true }

example :
    (CreateUser ⟨[], [], [], [], 1, 1, 1⟩ "alice" "pw1" (fun s => s) true).user
      = some ⟨1, "alice", "pw1"⟩ := by decide

example :
    (AddChannels ⟨[⟨1, "alice", "pw1"⟩], [], [], [], 2, 1, 1⟩
      ⟨1, "alice", "pw1"⟩ ["Tech News", "Diary"] (fun _ => true)).db.channels
      = [⟨1, 1, "tech_news", "Tech News"⟩, ⟨2, 1, "diary", "Diary"⟩] := by decide

/-! ### Basic facts about the channel operations -/

/-- `GetChannel` returns a nil channel pointer exactly when it returns a
non-nil error. -/
theorem GetChannel_nil_iff_err (db : DB) (u : User) (slug : String) :
    (GetChannel db u slug).1 = none ↔ (GetChannel db u slug).2 = true := by
  unfold GetChannel
  cases findChannel db u.Id slug <;> simp

/-- A channel insert never removes rows from the `channel` table. -/
theorem execInsertChannel_channels_mono {db : DB} {uid : Nat}
    {slug label : String} {ok : Bool} {r : ChannelRow} (h : r ∈ db.channels) :
    r ∈ (execInsertChannel db uid slug label ok).1.channels := by
  unfold execInsertChannel
  split
  · exact List.mem_append_left _ h
  · exact h

/-- The channel-creation loop never removes rows from the `channel` table:
a row present mid-transaction is still present when the loop reaches the
commit point, whatever later statements do. -/
theorem addChannelsLoop_channels_mono (u : User) (oracle : Nat → Bool) :
    ∀ (labels : List String) (db : DB) (k : Nat)
      (created : List (Option Channel)) {r : ChannelRow},
      r ∈ db.channels →
      r ∈ (addChannelsLoop db u labels oracle k created).1.channels := by
  intro labels
  induction labels with
  | nil =>
    intro db k created r h
    simpa [addChannelsLoop] using h
  | cons label rest ih =>
    intro db k created r h
    by_cases he : label = ""
    · subst he
      simpa [addChannelsLoop] using ih db k created h
    · have h1 : r ∈ (execInsertChannel db u.Id (slugOf label) label
          (oracle k)).1.channels := execInsertChannel_channels_mono h
      simp only [addChannelsLoop, if_neg he]
      split
      · exact ih _ _ _ h1
      · exact ih _ _ _ h1

/-- After a channel insert whose `Exec` did not fail for engine reasons
(`ok = true`), a row with the inserted key exists: either the insert
succeeded, or it hit the uniqueness constraint because such a row was
already there. -/
theorem findChannel_after_insert (db : DB) (uid : Nat) (slug label : String) :
    findChannel (execInsertChannel db uid slug label true).1 uid slug ≠ none := by
  by_cases hc : findChannel db uid slug = none
  · unfold execInsertChannel
    rw [if_pos (And.intro rfl hc)]
    unfold findChannel at hc ⊢
    simp only [List.find?_append, hc, Option.none_or]
    simp
  · simp [execInsertChannel, hc]

/-- `GetChannel` reports an error exactly when no matching row exists. -/
theorem GetChannel_err_iff (db : DB) (u : User) (slug : String) :
    (GetChannel db u slug).2 = true ↔ findChannel db u.Id slug = none := by
  unfold GetChannel
  cases findChannel db u.Id slug <;> simp

/-- Every pointer the channel-creation loop ever appends to `created` is
nil: it appends only in the error branch of the post-insert lookup, and
an erroring `GetChannel` yields a nil pointer. -/
theorem addChannelsLoop_created_all_none (u : User) (oracle : Nat → Bool) :
    ∀ (labels : List String) (db : DB) (k : Nat)
      (created : List (Option Channel)),
      (∀ c ∈ created, c = none) →
      ∀ c ∈ (addChannelsLoop db u labels oracle k created).2, c = none := by
  intro labels
  induction labels with
  | nil =>
    intro db k created hc
    simpa [addChannelsLoop] using hc
  | cons label rest ih =>
    intro db k created hc
    by_cases he : label = ""
    · subst he
      simpa [addChannelsLoop] using ih db k created hc
    · simp only [addChannelsLoop, if_neg he]
      split
      · rename_i hgc
        refine ih _ _ _ ?_
        intro c hmem
        rcases List.mem_append.1 hmem with h | h
        · exact hc c h
        · rcases List.mem_singleton.1 h with rfl
          exact (GetChannel_nil_iff_err _ u _).2 hgc
      · exact ih _ _ _ hc

/-- When no `Exec` fails for engine reasons, every post-insert lookup in
the channel-creation loop finds a row, so the loop appends nothing to
`created`. -/
theorem addChannelsLoop_created_of_all_ok (u : User) (oracle : Nat → Bool)
    (hall : ∀ j, oracle j = true) :
    ∀ (labels : List String) (db : DB) (k : Nat)
      (created : List (Option Channel)),
      (addChannelsLoop db u labels oracle k created).2 = created := by
  intro labels
  induction labels with
  | nil =>
    intro db k created
    rfl
  | cons label rest ih =>
    intro db k created
    by_cases he : label = ""
    · subst he
      simpa [addChannelsLoop] using ih db k created
    · have hrow : findChannel
          (execInsertChannel db u.Id (slugOf label) label (oracle k)).1
          u.Id (slugOf label) ≠ none := by
        rw [hall k]
        exact findChannel_after_insert db u.Id (slugOf label) label
      have hgc : (GetChannel
          (execInsertChannel db u.Id (slugOf label) label (oracle k)).1
          u (slugOf label)).2 = false := by
        rcases hb : (GetChannel
            (execInsertChannel db u.Id (slugOf label) label (oracle k)).1
            u (slugOf label)).2 with _ | _
        · rfl
        · exact absurd ((GetChannel_err_iff _ _ _).1 hb) hrow
      simp only [addChannelsLoop, if_neg he, hgc]
      simpa using ih _ (k + 1) created

/-- C1: in `AddChannels`, a non-empty label's iteration appends a channel
to `created` exactly when the post-insert `GetChannel` for that label's
slug returns a non-nil error; when the lookup succeeds the channel is not
reported as created.  Consequently, when every insert `Exec` succeeds,
`AddChannels` reports no channel as created at all. -/
theorem addChannels_reports_created_only_on_lookup_error
    (db : DB) (u : User) (label : String) (rest : List String)
    (oracle : Nat → Bool) (k : Nat) (created : List (Option Channel))
    (hl : label ≠ "") :
    ((GetChannel (execInsertChannel db u.Id (slugOf label) label (oracle k)).1
        u (slugOf label)).2 = true →
      addChannelsLoop db u (label :: rest) oracle k created
        = addChannelsLoop
            (execInsertChannel db u.Id (slugOf label) label (oracle k)).1
            u rest oracle (k + 1)
            (created ++ [(GetChannel
                (execInsertChannel db u.Id (slugOf label) label (oracle k)).1
                u (slugOf label)).1]))
    ∧ ((GetChannel (execInsertChannel db u.Id (slugOf label) label (oracle k)).1
        u (slugOf label)).2 = false →
      addChannelsLoop db u (label :: rest) oracle k created
        = addChannelsLoop
            (execInsertChannel db u.Id (slugOf label) label (oracle k)).1
            u rest oracle (k + 1) created)
    ∧ (∀ names, (∀ j, oracle j = true) →
        (AddChannels db u names oracle).created = []) := by
  refine ⟨?_, ?_, ?_⟩
  · intro h
    simp [addChannelsLoop, if_neg hl, h]
  · intro h
    simp [addChannelsLoop, if_neg hl, h]
  · intro names hall
    exact addChannelsLoop_created_of_all_ok u oracle hall names db 0 []

/-- Witness for C1 at a concrete input: the label is non-empty, and with
an all-success oracle the two channels are inserted yet reported as not
created. -/
theorem addChannels_reports_created_only_on_lookup_error_witness :
    ("Tech News" ≠ "")
    ∧ (AddChannels ⟨[⟨1, "alice", "pw"⟩], [], [], [], 2, 1, 1⟩
        ⟨1, "alice", "pw"⟩ ["Tech News", "Diary"] (fun _ => true)).created
      = [] :=
  ⟨by decide,
    (addChannels_reports_created_only_on_lookup_error
      ⟨[⟨1, "alice", "pw"⟩], [], [], [], 2, 1, 1⟩ ⟨1, "alice", "pw"⟩
      "Tech News" [] (fun _ => true) 0 [] (by decide)).2.2
      ["Tech News", "Diary"] (fun _ => rfl)⟩

/-- C10: every element of the `created` slice returned by `AddChannels`
is a nil pointer, and `GetChannel` returns a nil channel exactly when it
returns a non-nil error. -/
theorem addChannels_created_elements_always_nil
    (db : DB) (u : User) (names : List String) (oracle : Nat → Bool) :
    (∀ c ∈ (AddChannels db u names oracle).created, c = none)
    ∧ ∀ (db' : DB) (u' : User) (slug : String),
        ((GetChannel db' u' slug).1 = none ↔ (GetChannel db' u' slug).2 = true) := by
  constructor
  · intro c hc
    refine addChannelsLoop_created_all_none u oracle names db 0 [] ?_ c ?_
    · intro x hx
      exact absurd hx (List.not_mem_nil x)
    · exact hc
  · intro db' u' slug
    exact GetChannel_nil_iff_err db' u' slug

/-- Witness for C10: a concrete run in which an engine failure makes a
lookup fail, so an element is appended — and it is nil. -/
theorem addChannels_created_elements_always_nil_witness :
    (AddChannels ⟨[⟨1, "alice", "pw"⟩], [], [], [], 2, 1, 1⟩
        ⟨1, "alice", "pw"⟩ ["Tech News"] (fun _ => false)).created = [none]
    ∧ ∀ c ∈ (AddChannels ⟨[⟨1, "alice", "pw"⟩], [], [], [], 2, 1, 1⟩
        ⟨1, "alice", "pw"⟩ ["Tech News"] (fun _ => false)).created, c = none :=
  ⟨by decide,
    (addChannels_created_elements_always_nil
      ⟨[⟨1, "alice", "pw"⟩], [], [], [], 2, 1, 1⟩ ⟨1, "alice", "pw"⟩
      ["Tech News"] (fun _ => false)).1⟩

/-- Skipping the empty labels of the input list does not change the
channel-creation loop's behaviour in any way: empty labels consume no
insert, no lookup and no oracle position. -/
theorem addChannelsLoop_skips_empty (u : User) (oracle : Nat → Bool) :
    ∀ (labels : List String) (db : DB) (k : Nat)
      (created : List (Option Channel)),
      addChannelsLoop db u labels oracle k created
        = addChannelsLoop db u (labels.filter (fun l => !(l == ""))) oracle
            k created := by
  intro labels
  induction labels with
  | nil =>
    intro db k created
    rfl
  | cons label rest ih =>
    intro db k created
    by_cases he : label = ""
    · subst he
      simp only [List.filter_cons]
      simpa [addChannelsLoop] using ih db k created
    · have hb : (!(label == "")) = true := by
        simp [he]
      simp only [List.filter_cons, hb, if_pos]
      simp only [addChannelsLoop, if_neg he]
      split
      · exact ih _ _ _
      · exact ih _ _ _

/-- C5: `AddChannels` ignores empty-string labels entirely — the whole
operation (final database, `created` slice, error, commit) is the same as
if the empty entries were absent from the input list. -/
theorem addChannels_ignores_empty_labels
    (db : DB) (u : User) (names : List String) (oracle : Nat → Bool) :
    AddChannels db u names oracle
      = AddChannels db u (names.filter (fun l => !(l == ""))) oracle := by
  unfold AddChannels
  rw [addChannelsLoop_skips_empty]

/-- C6: for a username with no matching row `GetUser` returns a nil user
with a `found = false` flag (its signature has no error at all), whereas
`GetUserById` returns a nil user with a propagated non-nil error for a
missing row. -/
theorem getUser_missing_is_flag_getUserById_missing_is_error
    (db : DB) (username : String) (id : Nat)
    (h1 : findUserByName db username = none)
    (h2 : findUserById db id = none) :
    GetUser db username = (none, false) ∧ GetUserById db id = (none, true) := by
  constructor
  · simp [GetUser, h1]
  · simp [GetUserById, h2]

/-- Witness for C6 on the empty database. -/
theorem getUser_missing_is_flag_getUserById_missing_is_error_witness :
    findUserByName ⟨[], [], [], [], 1, 1, 1⟩ "alice" = none
    ∧ findUserById ⟨[], [], [], [], 1, 1, 1⟩ 7 = none
    ∧ (GetUser ⟨[], [], [], [], 1, 1, 1⟩ "alice" = (none, false)
       ∧ GetUserById ⟨[], [], [], [], 1, 1, 1⟩ 7 = (none, true)) :=
  ⟨by decide, by decide,
    getUser_missing_is_flag_getUserById_missing_is_error
      ⟨[], [], [], [], 1, 1, 1⟩ "alice" 7 (by decide) (by decide)⟩

/-- C9: `CreateUser` returns a nil error no matter what the insert did:
its `Exec` error (a duplicate-username constraint violation included) is
never checked, the transaction is committed, and the returned user is
whatever the fresh `GetUser` lookup yields — the pre-existing row on a
duplicate username, or nil when the insert failed and no row exists. -/
theorem createUser_always_returns_nil_error
    (db : DB) (username password : String) (hash : String → String)
    (ok : Bool) :
    (CreateUser db username password hash ok).err = false
    ∧ (CreateUser db username password hash ok).committed = true
    ∧ (CreateUser db username password hash ok).user
        = (GetUser (CreateUser db username password hash ok).db username).1
    ∧ (∀ r, findUserByName db username = some r →
        (CreateUser db username password hash ok).db = db
        ∧ (CreateUser db username password hash ok).user
            = some ⟨r.id, username, r.password⟩)
    ∧ (ok = false → findUserByName db username = none →
        (CreateUser db username password hash ok).user = none) := by
  refine ⟨rfl, rfl, rfl, ?_, ?_⟩
  · intro r hr
    have hdup : ¬(ok = true ∧ findUserByName db username = none) := by
      intro hcon
      rw [hr] at hcon
      exact Option.noConfusion hcon.2
    constructor
    · simp [CreateUser, execInsertUser, hdup]
    · simp [CreateUser, execInsertUser, hdup, GetUser, hr]
  · intro hok hnone
    subst hok
    simp [CreateUser, execInsertUser, GetUser, hnone]

/-- Witness for C9: inserting "alice" over an existing "alice" row still
returns a nil error and hands back the pre-existing user unchanged. -/
theorem createUser_always_returns_nil_error_witness :
    (CreateUser ⟨[⟨1, "alice", "old"⟩], [], [], [], 2, 1, 1⟩ "alice" "pw"
        (fun s => s) true).err = false
    ∧ (CreateUser ⟨[⟨1, "alice", "old"⟩], [], [], [], 2, 1, 1⟩ "alice" "pw"
        (fun s => s) true).db = ⟨[⟨1, "alice", "old"⟩], [], [], [], 2, 1, 1⟩
    ∧ (CreateUser ⟨[⟨1, "alice", "old"⟩], [], [], [], 2, 1, 1⟩ "alice" "pw"
        (fun s => s) true).user = some ⟨1, "alice", "old"⟩ :=
  ⟨(createUser_always_returns_nil_error
      ⟨[⟨1, "alice", "old"⟩], [], [], [], 2, 1, 1⟩ "alice" "pw"
      (fun s => s) true).1,
    ((createUser_always_returns_nil_error
      ⟨[⟨1, "alice", "old"⟩], [], [], [], 2, 1, 1⟩ "alice" "pw"
      (fun s => s) true).2.2.2.1 ⟨1, "alice", "old"⟩ (by decide)).1,
    ((createUser_always_returns_nil_error
      ⟨[⟨1, "alice", "old"⟩], [], [], [], 2, 1, 1⟩ "alice" "pw"
      (fun s => s) true).2.2.2.1 ⟨1, "alice", "old"⟩ (by decide)).2⟩

/-! ### Feed listing -/

/-- C7: `GetAllPosts` resolves each fetched row's owning user and
silently skips — omits from the returned page, with a nil returned
error — every row whose owning user cannot be resolved; rows whose user
resolves are kept. -/
theorem getAllPosts_skips_unresolvable_users (db : DB) (limit offset : Nat) :
    (GetAllPosts db limit offset).2 = false
    ∧ (GetAllPosts db limit offset).1
        = (pageRows db limit offset).filterMap (resolvePost db)
    ∧ (∀ r ∈ pageRows db limit offset, (GetUserById db r.user_id).2 = true →
        resolvePost db r = none)
    ∧ (∀ r ∈ pageRows db limit offset, ∀ u,
        GetUserById db r.user_id = (some u, false) →
        (⟨r.id, r.uuid, some u, r.body, r.posted⟩ : Post)
          ∈ (GetAllPosts db limit offset).1) := by
  refine ⟨rfl, rfl, ?_, ?_⟩
  · intro r _ herr
    unfold resolvePost
    rcases hu : GetUserById db r.user_id with ⟨u, e⟩
    rw [hu] at herr
    cases u <;> simp_all
  · intro r hr u hu
    unfold GetAllPosts
    refine List.mem_filterMap.2 ⟨r, hr, ?_⟩
    unfold resolvePost
    rw [hu]

/-- Witness for C7: a two-post page where one post's owner is missing
from the users table; that post is dropped, the other kept, no error. -/
theorem getAllPosts_skips_unresolvable_users_witness :
    (GetAllPosts ⟨[⟨1, "alice", "pw"⟩], [],
        [⟨1, "a", 1, "hi", 10⟩, ⟨2, "b", 9, "lost", 20⟩], [], 2, 1, 3⟩ 10 0).2
      = false
    ∧ (⟨2, "b", 9, "lost", 20⟩ : PostRow)
        ∈ pageRows ⟨[⟨1, "alice", "pw"⟩], [],
            [⟨1, "a", 1, "hi", 10⟩, ⟨2, "b", 9, "lost", 20⟩], [], 2, 1, 3⟩ 10 0
    ∧ resolvePost ⟨[⟨1, "alice", "pw"⟩], [],
        [⟨1, "a", 1, "hi", 10⟩, ⟨2, "b", 9, "lost", 20⟩], [], 2, 1, 3⟩
        ⟨2, "b", 9, "lost", 20⟩ = none
    ∧ (GetAllPosts ⟨[⟨1, "alice", "pw"⟩], [],
        [⟨1, "a", 1, "hi", 10⟩, ⟨2, "b", 9, "lost", 20⟩], [], 2, 1, 3⟩ 10 0).1
      = [⟨1, "a", some ⟨1, "alice", "pw"⟩, "hi", 10⟩] := by
  refine ⟨(getAllPosts_skips_unresolvable_users ⟨[⟨1, "alice", "pw"⟩], [],
      [⟨1, "a", 1, "hi", 10⟩, ⟨2, "b", 9, "lost", 20⟩], [], 2, 1, 3⟩ 10 0).1,
    by decide,
    (getAllPosts_skips_unresolvable_users ⟨[⟨1, "alice", "pw"⟩], [],
      [⟨1, "a", 1, "hi", 10⟩, ⟨2, "b", 9, "lost", 20⟩], [], 2, 1, 3⟩ 10 0).2.2.1
      ⟨2, "b", 9, "lost", 20⟩ (by decide) (by decide),
    by decide⟩

/-! ### Post creation -/

/-- The join-row loop of `AddPost` touches only the `postchannel` table. -/
theorem addPostJoinLoop_tables (pid : Nat) (oracle : Nat → Bool) :
    ∀ (channels : List Channel) (db : DB) (k : Nat),
      (addPostJoinLoop db pid channels oracle k).posts = db.posts
      ∧ (addPostJoinLoop db pid channels oracle k).users = db.users := by
  intro channels
  induction channels with
  | nil =>
    intro db k
    exact ⟨rfl, rfl⟩
  | cons c rest ih =>
    intro db k
    by_cases h : oracle k = true
    · simpa [addPostJoinLoop, h] using ih _ (k + 1)
    · simpa [addPostJoinLoop, h] using ih _ (k + 1)

/-- The join-row loop never removes join rows: a row present
mid-transaction survives to the commit point, whatever later statements
do. -/
theorem addPostJoinLoop_pc_mono (pid : Nat) (oracle : Nat → Bool) :
    ∀ (channels : List Channel) (db : DB) (k : Nat) {x : PostChannelRow},
      x ∈ db.postchannels →
      x ∈ (addPostJoinLoop db pid channels oracle k).postchannels := by
  intro channels
  induction channels with
  | nil =>
    intro db k x hx
    simpa [addPostJoinLoop] using hx
  | cons c rest ih =>
    intro db k x hx
    by_cases h : oracle k = true
    · refine ih _ (k + 1) ?_
      simp [h, List.mem_append]
      exact Or.inl hx
    · simpa [addPostJoinLoop, h] using ih _ (k + 1) hx

/-- Every channel whose join insert's `Exec` succeeded has its join row
present when the loop finishes. -/
theorem addPostJoinLoop_adds (pid : Nat) (oracle : Nat → Bool) :
    ∀ (channels : List Channel) (db : DB) (k i : Nat) (hi : i < channels.length),
      oracle (k + i) = true →
      (⟨pid, (channels.get ⟨i, hi⟩).Id⟩ : PostChannelRow)
        ∈ (addPostJoinLoop db pid channels oracle k).postchannels := by
  intro channels
  induction channels with
  | nil =>
    intro db k i hi
    exact absurd hi (by simp)
  | cons c rest ih =>
    intro db k i hi ho
    cases i with
    | zero =>
      have hk : oracle k = true := by simpa using ho
      simp only [addPostJoinLoop, hk, if_pos, List.get]
      refine addPostJoinLoop_pc_mono pid oracle rest _ (k + 1) ?_
      simp
    | succ j =>
      have ho1 : oracle ((k + 1) + j) = true := by
        rw [show (k + 1) + j = k + (j + 1) by omega]
        exact ho
      have hj : j < rest.length := by simpa using hi
      simpa [addPostJoinLoop, List.get] using ih _ (k + 1) j hj ho1

/-- When every join insert succeeds, the loop appends exactly one join
row per channel, in order. -/
theorem addPostJoinLoop_all_ok (pid : Nat) (oracle : Nat → Bool)
    (hall : ∀ j, oracle j = true) :
    ∀ (channels : List Channel) (db : DB) (k : Nat),
      (addPostJoinLoop db pid channels oracle k).postchannels
        = db.postchannels
            ++ channels.map (fun c => (⟨pid, c.Id⟩ : PostChannelRow)) := by
  intro channels
  induction channels with
  | nil =>
    intro db k
    simp [addPostJoinLoop]
  | cons c rest ih =>
    intro db k
    simp only [addPostJoinLoop, hall k, if_pos, List.map_cons]
    rw [ih _ (k + 1)]
    simp

/-- C2: with the generated token fresh and the post insert succeeding,
`AddPost` inserts the post row carrying that token and one join row per
channel whose insert succeeded, all inside the one transaction, reaches
`tx.Commit()` for every pattern of join-insert failures, and returns —
with a nil error — the post re-read by its newly assigned identifier. -/
theorem addPost_commits_despite_join_failures_and_rereads
    (db : DB) (u : User) (body : String) (channels : List Channel)
    (u4 : String) (now : Int) (joinOracle : Nat → Bool) (ru : UserRow)
    (hu : findUserById db u.Id = some ru)
    (hfresh : db.posts.find? (fun r => r.uuid == u4) = none)
    (hid : ∀ r ∈ db.posts, r.id ≠ db.nextPostId) :
    (AddPost db u body channels u4 now true joinOracle).committed = true
    ∧ (AddPost db u body channels u4 now true joinOracle).err = false
    ∧ (AddPost db u body channels u4 now true joinOracle).db.posts
        = db.posts ++ [⟨db.nextPostId, u4, u.Id, body, now⟩]
    ∧ (AddPost db u body channels u4 now true joinOracle).post
        = (GetPost (AddPost db u body channels u4 now true joinOracle).db
            db.nextPostId).1
    ∧ (AddPost db u body channels u4 now true joinOracle).post
        = some ⟨db.nextPostId, u4, some ⟨u.Id, ru.username, ru.password⟩,
            body, now⟩
    ∧ (∀ i, ∀ hi : i < channels.length, joinOracle i = true →
        (⟨db.nextPostId, (channels.get ⟨i, hi⟩).Id⟩ : PostChannelRow)
          ∈ (AddPost db u body channels u4 now true joinOracle).db.postchannels)
    ∧ ((∀ j, joinOracle j = true) →
        (AddPost db u body channels u4 now true joinOracle).db.postchannels
          = db.postchannels
              ++ channels.map (fun c => (⟨db.nextPostId, c.Id⟩ : PostChannelRow))) := by
  have hins : execInsertPost db u.Id u4 body now true
      = ({ db with
            posts := db.posts ++ [⟨db.nextPostId, u4, u.Id, body, now⟩],
            nextPostId := db.nextPostId + 1 }, some db.nextPostId) := by
    unfold execInsertPost
    rw [if_pos (And.intro rfl hfresh)]
  simp only [AddPost, hins]
  have htab := addPostJoinLoop_tables db.nextPostId joinOracle channels
    { db with
        posts := db.posts ++ [⟨db.nextPostId, u4, u.Id, body, now⟩],
        nextPostId := db.nextPostId + 1 } 0
  have hfindp : findPost
      (addPostJoinLoop
        { db with
            posts := db.posts ++ [⟨db.nextPostId, u4, u.Id, body, now⟩],
            nextPostId := db.nextPostId + 1 }
        db.nextPostId channels joinOracle 0) db.nextPostId
      = some ⟨db.nextPostId, u4, u.Id, body, now⟩ := by
    unfold findPost
    rw [htab.1]
    have hpref : db.posts.find? (fun r => r.id == db.nextPostId) = none := by
      refine List.find?_eq_none.2 ?_
      intro x hx
      simpa using hid x hx
    simp only [List.find?_append, hpref, Option.none_or]
    simp
  have hgu : GetUserById
      (addPostJoinLoop
        { db with
            posts := db.posts ++ [⟨db.nextPostId, u4, u.Id, body, now⟩],
            nextPostId := db.nextPostId + 1 }
        db.nextPostId channels joinOracle 0) u.Id
      = (some ⟨u.Id, ru.username, ru.password⟩, false) := by
    unfold GetUserById findUserById
    rw [htab.2]
    have : findUserById db u.Id = some ru := hu
    unfold findUserById at this
    rw [this]
  have hgp : GetPost
      (addPostJoinLoop
        { db with
            posts := db.posts ++ [⟨db.nextPostId, u4, u.Id, body, now⟩],
            nextPostId := db.nextPostId + 1 }
        db.nextPostId channels joinOracle 0) db.nextPostId
      = (some ⟨db.nextPostId, u4, some ⟨u.Id, ru.username, ru.password⟩,
          body, now⟩, false) := by
    unfold GetPost
    rw [hfindp]
    simp only [hgu]
  refine ⟨by trivial, ?_, ?_, by trivial, ?_, ?_, ?_⟩
  · simp [hgp]
  · exact htab.1
  · simp [hgp]
  · intro i hi hj
    have := addPostJoinLoop_adds db.nextPostId joinOracle channels
      { db with
          posts := db.posts ++ [⟨db.nextPostId, u4, u.Id, body, now⟩],
          nextPostId := db.nextPostId + 1 } 0 i hi (by simpa using hj)
    simpa using this
  · intro hall
    rw [addPostJoinLoop_all_ok db.nextPostId joinOracle hall channels]

/-- Witness for C2: the concrete scenario — alice posts "hello world"
into her "diary" channel; commit is reached, the post row and the join
row exist, and the re-read post is returned with a nil error. -/
theorem addPost_commits_despite_join_failures_and_rereads_witness :
    (AddPost ⟨[⟨1, "alice", "pw"⟩], [⟨1, 1, "diary", "Diary"⟩], [], [], 2, 2, 1⟩
        ⟨1, "alice", "pw"⟩ "hello world" [⟨1, none, "diary", "Diary"⟩]
        "tok" 5 true (fun _ => true)).committed = true
    ∧ (AddPost ⟨[⟨1, "alice", "pw"⟩], [⟨1, 1, "diary", "Diary"⟩], [], [], 2, 2, 1⟩
        ⟨1, "alice", "pw"⟩ "hello world" [⟨1, none, "diary", "Diary"⟩]
        "tok" 5 true (fun _ => true)).post
      = some ⟨1, "tok", some ⟨1, "alice", "pw"⟩, "hello world", 5⟩
    ∧ (AddPost ⟨[⟨1, "alice", "pw"⟩], [⟨1, 1, "diary", "Diary"⟩], [], [], 2, 2, 1⟩
        ⟨1, "alice", "pw"⟩ "hello world" [⟨1, none, "diary", "Diary"⟩]
        "tok" 5 true (fun _ => true)).db.postchannels = [⟨1, 1⟩] :=
  ⟨(addPost_commits_despite_join_failures_and_rereads
      ⟨[⟨1, "alice", "pw"⟩], [⟨1, 1, "diary", "Diary"⟩], [], [], 2, 2, 1⟩
      ⟨1, "alice", "pw"⟩ "hello world" [⟨1, none, "diary", "Diary"⟩]
      "tok" 5 (fun _ => true) ⟨1, "alice", "pw"⟩
      (by decide) (by decide) (by decide)).1,
    (addPost_commits_despite_join_failures_and_rereads
      ⟨[⟨1, "alice", "pw"⟩], [⟨1, 1, "diary", "Diary"⟩], [], [], 2, 2, 1⟩
      ⟨1, "alice", "pw"⟩ "hello world" [⟨1, none, "diary", "Diary"⟩]
      "tok" 5 (fun _ => true) ⟨1, "alice", "pw"⟩
      (by decide) (by decide) (by decide)).2.2.2.2.1,
    (addPost_commits_despite_join_failures_and_rereads
      ⟨[⟨1, "alice", "pw"⟩], [⟨1, 1, "diary", "Diary"⟩], [], [], 2, 2, 1⟩
      ⟨1, "alice", "pw"⟩ "hello world" [⟨1, none, "diary", "Diary"⟩]
      "tok" 5 (fun _ => true) ⟨1, "alice", "pw"⟩
      (by decide) (by decide) (by decide)).2.2.2.2.2.2 (fun _ => rfl)⟩

/-- The claim that every multi-statement operation commits its
transaction unconditionally is false for `AddPost`: at a concrete input
whose post-row insert `Exec` fails, the operation returns the error
before `tx.Commit()` is ever reached. -/
theorem addPost_insert_error_prevents_commit :
    (AddPost ⟨[⟨1, "alice", "pw"⟩], [], [], [], 2, 1, 1⟩ ⟨1, "alice", "pw"⟩
        "hello" [] "tok" 0 false (fun _ => true)).committed = false
    ∧ (AddPost ⟨[⟨1, "alice", "pw"⟩], [], [], [], 2, 1, 1⟩ ⟨1, "alice", "pw"⟩
        "hello" [] "tok" 0 false (fun _ => true)).err = true :=
  ⟨rfl, rfl⟩

/-- C3 (amended): user creation and channel batch creation reach
`tx.Commit()` unconditionally, and rows inserted by earlier statements of
the channel batch survive later statement failures; in post creation the
join-row statements cannot prevent the commit either, but a failing
post-row insert returns early, before the commit (with no rollback: the
returned state is the unchanged database). -/
theorem transactions_commit_unconditionally_except_post_insert :
    (∀ (db : DB) (username password : String) (hash : String → String)
        (ok : Bool),
      (CreateUser db username password hash ok).committed = true)
    ∧ (∀ (db : DB) (u : User) (names : List String) (oracle : Nat → Bool),
        (AddChannels db u names oracle).committed = true
        ∧ ∀ r ∈ db.channels, r ∈ (AddChannels db u names oracle).db.channels)
    ∧ (∀ (db : DB) (u : User) (body : String) (channels : List Channel)
        (u4 : String) (now : Int) (postOk : Bool) (joinOracle : Nat → Bool),
        ((execInsertPost db u.Id u4 body now postOk).2.isSome = true →
          (AddPost db u body channels u4 now postOk joinOracle).committed = true)
        ∧ ((execInsertPost db u.Id u4 body now postOk).2 = none →
          (AddPost db u body channels u4 now postOk joinOracle).committed = false
          ∧ (AddPost db u body channels u4 now postOk joinOracle).err = true
          ∧ (AddPost db u body channels u4 now postOk joinOracle).db = db)) := by
  refine ⟨?_, ?_, ?_⟩
  · intro db username password hash ok
    rfl
  · intro db u names oracle
    refine ⟨rfl, ?_⟩
    intro r hr
    exact addChannelsLoop_channels_mono u oracle names db 0 [] hr
  · intro db u body channels u4 now postOk joinOracle
    rcases hins : execInsertPost db u.Id u4 body now postOk with ⟨tx, oid⟩
    cases oid with
    | none =>
      constructor
      · intro hs
        simp at hs
      · intro _
        refine ⟨?_, ?_, ?_⟩ <;> simp [AddPost, hins]
    | some id =>
      constructor
      · intro _
        simp [AddPost, hins]
      · intro hn
        simp at hn

/-- Witness for C3's amended statement at concrete inputs: a channel
batch whose every insert fails still commits, and a user insert over a
duplicate username still commits. -/
theorem transactions_commit_unconditionally_except_post_insert_witness :
    (CreateUser ⟨[⟨1, "alice", "old"⟩], [], [], [], 2, 1, 1⟩ "alice" "pw"
        (fun s => s) true).committed = true
    ∧ (AddChannels ⟨[⟨1, "alice", "pw"⟩], [], [], [], 2, 1, 1⟩
        ⟨1, "alice", "pw"⟩ ["Diary"] (fun _ => false)).committed = true :=
  ⟨transactions_commit_unconditionally_except_post_insert.1
      ⟨[⟨1, "alice", "old"⟩], [], [], [], 2, 1, 1⟩ "alice" "pw"
      (fun s => s) true,
    (transactions_commit_unconditionally_except_post_insert.2.1
      ⟨[⟨1, "alice", "pw"⟩], [], [], [], 2, 1, 1⟩
      ⟨1, "alice", "pw"⟩ ["Diary"] (fun _ => false)).1⟩

/-! ### Channel slugs per user -/

/-- The slugs a user currently owns, in table order. -/
def userSlugs (db : DB) (uid : Nat) : List String :=
  (db.channels.filter (fun r => r.user_id == uid)).map (fun r => r.slug)

/-- Listing a user's channels and projecting the slugs is exactly
`userSlugs`. -/
theorem UserChannels_map_slug (db : DB) (u : User) :
    (UserChannels db u).map Channel.Slug = userSlugs db u.Id := by
  unfold UserChannels userSlugs
  rw [List.map_map]
  rfl

/-- `findChannel` misses exactly when the slug is absent from the user's
slugs. -/
theorem findChannel_eq_none_iff (db : DB) (uid : Nat) (s : String) :
    findChannel db uid s = none ↔ s ∉ userSlugs db uid := by
  unfold findChannel userSlugs
  rw [List.find?_eq_none]
  constructor
  · intro h hmem
    rcases List.mem_map.1 hmem with ⟨r, hr, hs⟩
    rcases List.mem_filter.1 hr with ⟨hrm, hru⟩
    refine h r hrm ?_
    simp only [beq_iff_eq] at hru ⊢
    simp [hru, hs]
  · intro h r hrm hp
    simp only [Bool.and_eq_true, beq_iff_eq] at hp
    exact h (List.mem_map.2
      ⟨r, List.mem_filter.2 ⟨hrm, by simp [hp.1]⟩, hp.2⟩)

/-- Effect of one channel insert on the owner's slug list. -/
theorem userSlugs_execInsertChannel (db : DB) (uid : Nat)
    (s label : String) (ok : Bool) :
    userSlugs (execInsertChannel db uid s label ok).1 uid
      = if ok = true ∧ findChannel db uid s = none
        then userSlugs db uid ++ [s] else userSlugs db uid := by
  unfold execInsertChannel
  split
  · simp [userSlugs, List.filter_append]
  · rfl

/-- Membership in a user's slug list survives the channel-creation loop. -/
theorem addChannelsLoop_userSlugs_mono (u : User) (oracle : Nat → Bool)
    (labels : List String) (db : DB) (k : Nat)
    (created : List (Option Channel)) {s : String}
    (h : s ∈ userSlugs db u.Id) :
    s ∈ userSlugs (addChannelsLoop db u labels oracle k created).1 u.Id := by
  unfold userSlugs at h ⊢
  rcases List.mem_map.1 h with ⟨r, hr, rfl⟩
  rcases List.mem_filter.1 hr with ⟨hrm, hru⟩
  exact List.mem_map.2 ⟨r, List.mem_filter.2
    ⟨addChannelsLoop_channels_mono u oracle labels db k created hrm, hru⟩, rfl⟩

/-- The channel-creation loop never introduces a duplicate slug for the
user: an insert only succeeds when the slug is absent (uniqueness
constraint), so a duplicate-free slug list stays duplicate-free. -/
theorem addChannelsLoop_userSlugs_nodup (u : User) (oracle : Nat → Bool) :
    ∀ (labels : List String) (db : DB) (k : Nat)
      (created : List (Option Channel)),
      (userSlugs db u.Id).Nodup →
      (userSlugs (addChannelsLoop db u labels oracle k created).1 u.Id).Nodup := by
  intro labels
  induction labels with
  | nil =>
    intro db k created h
    simpa [addChannelsLoop] using h
  | cons label rest ih =>
    intro db k created h
    by_cases he : label = ""
    · subst he
      simpa [addChannelsLoop] using ih db k created h
    · have hstep : (userSlugs
          (execInsertChannel db u.Id (slugOf label) label (oracle k)).1
          u.Id).Nodup := by
        rw [userSlugs_execInsertChannel]
        split
        · rename_i hcond
          rw [List.nodup_append]
          refine ⟨h, List.nodup_singleton _, ?_⟩
          intro a ha hb
          rcases List.mem_singleton.1 hb with rfl
          exact (findChannel_eq_none_iff db u.Id (slugOf label)).1 hcond.2 ha
        · exact h
      simp only [addChannelsLoop, if_neg he]
      split
      · exact ih _ _ _ hstep
      · exact ih _ _ _ hstep

/-- With every insert `Exec` succeeding, each non-empty label's slug is
present in the user's slug list when the loop finishes. -/
theorem addChannelsLoop_inserts_slugs (u : User) (oracle : Nat → Bool)
    (hall : ∀ j, oracle j = true) :
    ∀ (labels : List String) (db : DB) (k : Nat)
      (created : List (Option Channel)),
      ∀ l ∈ labels, l ≠ "" →
        slugOf l ∈ userSlugs (addChannelsLoop db u labels oracle k created).1 u.Id := by
  intro labels
  induction labels with
  | nil =>
    intro db k created l hl
    exact absurd hl (List.not_mem_nil l)
  | cons label rest ih =>
    intro db k created l hl hne
    by_cases he : label = ""
    · subst he
      rcases List.mem_cons.1 hl with rfl | hl1
      · exact absurd rfl hne
      · simpa [addChannelsLoop] using ih db k created l hl1 hne
    · simp only [addChannelsLoop, if_neg he]
      rcases List.mem_cons.1 hl with rfl | hl1
      · have hpres : slugOf l ∈ userSlugs
            (execInsertChannel db u.Id (slugOf l) l (oracle k)).1 u.Id := by
          have hne2 : findChannel
              (execInsertChannel db u.Id (slugOf l) l (oracle k)).1
              u.Id (slugOf l) ≠ none := by
            rw [hall k]
            exact findChannel_after_insert db u.Id (slugOf l) l
          by_contra hcon
          exact hne2 ((findChannel_eq_none_iff _ _ _).2 hcon)
        split
        · exact addChannelsLoop_userSlugs_mono u oracle rest _ (k + 1) _ hpres
        · exact addChannelsLoop_userSlugs_mono u oracle rest _ (k + 1) _ hpres
      · split
        · exact ih _ _ _ l hl1 hne
        · exact ih _ _ _ l hl1 hne

/-- C4: with every insert `Exec` succeeding and the user's slugs
initially duplicate-free (the schema invariant), `AddChannels` followed
by `UserChannels` yields, for every non-empty label, a listed channel
whose slug is the label lowercased with spaces replaced by underscores —
and the listing contains no duplicate slugs, even for duplicate labels. -/
theorem createChannels_then_listing_has_slug_per_label
    (db : DB) (u : User) (labels : List String) (oracle : Nat → Bool)
    (hall : ∀ j, oracle j = true)
    (hnodup : (userSlugs db u.Id).Nodup) :
    (∀ l ∈ labels, l ≠ "" →
      ∃ c ∈ UserChannels (AddChannels db u labels oracle).db u,
        c.Slug = slugOf l)
    ∧ ((UserChannels (AddChannels db u labels oracle).db u).map
        Channel.Slug).Nodup := by
  constructor
  · intro l hl hne
    have hmem := addChannelsLoop_inserts_slugs u oracle hall labels db 0 [] l hl hne
    have hmap : (UserChannels (AddChannels db u labels oracle).db u).map
        Channel.Slug = userSlugs (AddChannels db u labels oracle).db u.Id :=
      UserChannels_map_slug _ u
    have hmem2 : slugOf l ∈ (UserChannels (AddChannels db u labels oracle).db u).map
        Channel.Slug := by
      rw [hmap]
      exact hmem
    rcases List.mem_map.1 hmem2 with ⟨c, hc, hcs⟩
    exact ⟨c, hc, hcs⟩
  · rw [UserChannels_map_slug]
    exact addChannelsLoop_userSlugs_nodup u oracle labels db 0 [] hnodup

/-- Witness for C4: alice creates ["Tech News", "Diary", "Tech News"];
the listing has slugs tech_news and diary, without duplicates. -/
theorem createChannels_then_listing_has_slug_per_label_witness :
    ((UserChannels (AddChannels ⟨[⟨1, "alice", "pw"⟩], [], [], [], 2, 1, 1⟩
        ⟨1, "alice", "pw"⟩ ["Tech News", "Diary", "Tech News"]
        (fun _ => true)).db ⟨1, "alice", "pw"⟩).map Channel.Slug).Nodup
    ∧ ((UserChannels (AddChannels ⟨[⟨1, "alice", "pw"⟩], [], [], [], 2, 1, 1⟩
        ⟨1, "alice", "pw"⟩ ["Tech News", "Diary", "Tech News"]
        (fun _ => true)).db ⟨1, "alice", "pw"⟩).map Channel.Slug)
      = ["tech_news", "diary"] :=
  ⟨(createChannels_then_listing_has_slug_per_label
      ⟨[⟨1, "alice", "pw"⟩], [], [], [], 2, 1, 1⟩ ⟨1, "alice", "pw"⟩
      ["Tech News", "Diary", "Tech News"] (fun _ => true)
      (fun _ => rfl) (by decide)).2,
    by decide⟩

/-! ### Ordering and pagination of the feed -/

/-- Inserting into the descending-sorted prefix is a permutation of
consing. -/
theorem insertPostDesc_perm (r : PostRow) :
    ∀ l : List PostRow, (insertPostDesc r l).Perm (r :: l)
  | [] => List.Perm.refl _
  | x :: xs => by
    unfold insertPostDesc
    split
    · exact List.Perm.refl _
    · exact ((insertPostDesc_perm r xs).cons x).trans (List.Perm.swap r x xs)

/-- `insertPostDesc` preserves the descending-by-`posted` order. -/
theorem insertPostDesc_pairwise (r : PostRow) :
    ∀ l : List PostRow,
      l.Pairwise (fun a b => b.posted ≤ a.posted) →
      (insertPostDesc r l).Pairwise (fun a b => b.posted ≤ a.posted)
  | [], _ => by simp [insertPostDesc]
  | x :: xs, h => by
    unfold insertPostDesc
    split
    · rename_i hle
      refine List.Pairwise.cons ?_ h
      intro y hy
      rcases List.mem_cons.1 hy with rfl | hy1
      · exact hle
      · exact le_trans (List.rel_of_pairwise_cons h hy1) hle
    · rename_i hgt
      refine List.Pairwise.cons ?_ (insertPostDesc_pairwise r xs h.of_cons)
      intro y hy
      have hy2 : y ∈ r :: xs := ((insertPostDesc_perm r xs).mem_iff).1 hy
      rcases List.mem_cons.1 hy2 with rfl | hy3
      · exact le_of_lt (lt_of_not_le hgt)
      · exact List.rel_of_pairwise_cons h hy3

/-- The sort used for `order by posted desc` is a permutation of the
table contents. -/
theorem sortPostsDesc_perm : ∀ l : List PostRow, (sortPostsDesc l).Perm l
  | [] => List.Perm.refl _
  | x :: xs =>
    (insertPostDesc_perm x (sortPostsDesc xs)).trans
      ((sortPostsDesc_perm xs).cons x)

/-- The sort used for `order by posted desc` is descending by `posted`. -/
theorem sortPostsDesc_pairwise :
    ∀ l : List PostRow,
      (sortPostsDesc l).Pairwise (fun a b => b.posted ≤ a.posted)
  | [] => List.Pairwise.nil
  | x :: xs => insertPostDesc_pairwise x (sortPostsDesc xs) (sortPostsDesc_pairwise xs)

/-- The post a row resolves to keeps the row's id and timestamp. -/
theorem resolvePost_fields {db : DB} {r : PostRow} {p : Post}
    (h : resolvePost db r = some p) :
    p.Id = r.id ∧ p.Posted = r.posted := by
  unfold resolvePost at h
  split at h
  · injection h with h2
    subst h2
    exact ⟨rfl, rfl⟩
  · exact Option.noConfusion h

/-- The page rows are descending by `posted`. -/
theorem pageRows_pairwise (db : DB) (limit offset : Nat) :
    (pageRows db limit offset).Pairwise (fun a b => b.posted ≤ a.posted) := by
  unfold pageRows
  exact List.Pairwise.sublist
    ((List.take_sublist _ _).trans (List.drop_sublist _ _))
    (sortPostsDesc_pairwise db.posts)

/-- C8: with post ids unique (the primary-key invariant), a first page
`getAllPosts(N, 0)` has at most N posts in descending creation-time
order, and a second page `getAllPosts(N, N)` shares no post with it
(the model is sequential, so "no concurrent writes" holds by
construction). -/
theorem getAllPosts_pagination
    (db : DB) (N : Nat)
    (hnodup : (db.posts.map (fun r => r.id)).Nodup) :
    (GetAllPosts db N 0).1.length ≤ N
    ∧ (GetAllPosts db N 0).1.Pairwise (fun a b => b.Posted ≤ a.Posted)
    ∧ ∀ a ∈ (GetAllPosts db N 0).1, ∀ b ∈ (GetAllPosts db N N).1,
        a.Id ≠ b.Id := by
  refine ⟨?_, ?_, ?_⟩
  · calc (GetAllPosts db N 0).1.length
        ≤ (pageRows db N 0).length := List.length_filterMap_le _ _
      _ ≤ N := List.length_take_le _ _
  · show ((pageRows db N 0).filterMap (resolvePost db)).Pairwise
        (fun a b => b.Posted ≤ a.Posted)
    rw [List.pairwise_filterMap]
    refine (pageRows_pairwise db N 0).imp ?_
    intro r1 r2 hle p1 hp1 p2 hp2
    rcases resolvePost_fields hp1 with ⟨_, hpost1⟩
    rcases resolvePost_fields hp2 with ⟨_, hpost2⟩
    rw [hpost1, hpost2]
    exact hle
  · intro a ha b hb
    rcases List.mem_filterMap.1 ha with ⟨ra, hra, hresa⟩
    rcases List.mem_filterMap.1 hb with ⟨rb, hrb, hresb⟩
    have hras : ra ∈ (sortPostsDesc db.posts).take N := by
      have := hra
      unfold pageRows at this
      rwa [List.drop_zero] at this
    have hrbs : rb ∈ (sortPostsDesc db.posts).drop N := by
      have := hrb
      unfold pageRows at this
      exact List.take_subset _ _ this
    have hsortnodup : ((sortPostsDesc db.posts).map (fun r => r.id)).Nodup :=
      (((sortPostsDesc_perm db.posts).map (fun r => r.id)).nodup_iff).2 hnodup
    have hsplit : (sortPostsDesc db.posts).map (fun r => r.id)
        = ((sortPostsDesc db.posts).take N).map (fun r => r.id)
          ++ ((sortPostsDesc db.posts).drop N).map (fun r => r.id) := by
      rw [← List.map_append, List.take_append_drop]
    rw [hsplit] at hsortnodup
    have hdisj := (List.nodup_append.1 hsortnodup).2.2
    intro heq
    refine hdisj (List.mem_map_of_mem (fun r => r.id) hras) ?_
    have hid : ra.id = rb.id := by
      rcases resolvePost_fields hresa with ⟨hia, _⟩
      rcases resolvePost_fields hresb with ⟨hib, _⟩
      rw [← hia, ← hib]
      exact heq
    rw [hid]
    exact List.mem_map_of_mem (fun r => r.id) hrbs

/-- Witness for C8: four posts with distinct ids; the first page of two
is [40, 30] by timestamp, the second [20, 10]; no overlap. -/
theorem getAllPosts_pagination_witness :
    ((( [⟨1, "a", 1, "p1", 10⟩, ⟨2, "b", 1, "p2", 30⟩,
        ⟨3, "c", 1, "p3", 20⟩, ⟨4, "d", 1, "p4", 40⟩] : List PostRow).map
        (fun r => r.id)).Nodup)
    ∧ (GetAllPosts ⟨[⟨1, "alice", "pw"⟩], [],
        [⟨1, "a", 1, "p1", 10⟩, ⟨2, "b", 1, "p2", 30⟩,
         ⟨3, "c", 1, "p3", 20⟩, ⟨4, "d", 1, "p4", 40⟩], [], 2, 1, 5⟩ 2 0).1.length ≤ 2
    ∧ (∀ a ∈ (GetAllPosts ⟨[⟨1, "alice", "pw"⟩], [],
        [⟨1, "a", 1, "p1", 10⟩, ⟨2, "b", 1, "p2", 30⟩,
         ⟨3, "c", 1, "p3", 20⟩, ⟨4, "d", 1, "p4", 40⟩], [], 2, 1, 5⟩ 2 0).1,
        ∀ b ∈ (GetAllPosts ⟨[⟨1, "alice", "pw"⟩], [],
        [⟨1, "a", 1, "p1", 10⟩, ⟨2, "b", 1, "p2", 30⟩,
         ⟨3, "c", 1, "p3", 20⟩, ⟨4, "d", 1, "p4", 40⟩], [], 2, 1, 5⟩ 2 2).1,
        a.Id ≠ b.Id) :=
  ⟨by decide,
    (getAllPosts_pagination ⟨[⟨1, "alice", "pw"⟩], [],
      [⟨1, "a", 1, "p1", 10⟩, ⟨2, "b", 1, "p2", 30⟩,
       ⟨3, "c", 1, "p3", 20⟩, ⟨4, "d", 1, "p4", 40⟩], [], 2, 1, 5⟩ 2
      (by decide)).1,
    (getAllPosts_pagination ⟨[⟨1, "alice", "pw"⟩], [],
      [⟨1, "a", 1, "p1", 10⟩, ⟨2, "b", 1, "p2", 30⟩,
       ⟨3, "c", 1, "p3", 20⟩, ⟨4, "d", 1, "p4", 40⟩], [], 2, 1, 5⟩ 2
      (by decide)).2.2⟩
